import Mathlib

/-!
Shallow embedding of the clip-preparation backend in `src/server/routes.ts`
(URL validation, timestamp parsing, exit handling in the process runner, the
metadata cache and the three HTTP handlers), together with theorems settling
the specification claims about it.

JavaScript numbers are modelled as `Option ℚ`: `none` is NaN and arithmetic
propagates it, matching IEEE NaN propagation for the operations the server
uses (`+`, `-`, `*` on values far from overflow).  JavaScript strings are
Lean `String`s; `String.split(sep)` for a single-character separator is the
`splitList` function below, which keeps empty fields exactly as JavaScript
does (`"".split(':') = [""]`, `":".split(':') = ["", ""]`).
-/

/-- A JavaScript number: `none` models NaN. -/
abbrev JSNum := Option ℚ

/-- JavaScript `+` on numbers: NaN propagates. -/
def jadd : JSNum → JSNum → JSNum
  | some x, some y => some (x + y)
  | _, _ => none

/-- JavaScript `-` on numbers: NaN propagates. -/
def jsub : JSNum → JSNum → JSNum
  | some x, some y => some (x - y)
  | _, _ => none

/-- JavaScript `*` on numbers: NaN propagates. -/
def jmul : JSNum → JSNum → JSNum
  | some x, some y => some (x * y)
  | _, _ => none

/-- JavaScript `x || d` for a number `x`: NaN and 0 are falsy and give `d`. -/
def jsOrDefault (x : JSNum) (d : ℚ) : ℚ :=
  match x with
  | some v => if v = 0 then d else v
  | none => d

/-- Decimal digit test, as in JavaScript numeric literal grammar. -/
def isDigitCh (c : Char) : Bool := '0' ≤ c && c ≤ '9'

/-- Value of a list of decimal digits, most significant first. -/
def digitsToNat (l : List Char) : Nat :=
  l.foldl (fun a c => 10 * a + (c.toNat - '0'.toNat)) 0

/-- JavaScript whitespace test (the ASCII part, which is all the server feeds it). -/
def isSpaceCh (c : Char) : Bool := c = ' ' || c = '\t' || c = '\n' || c = '\r'

/-- Trim leading and trailing whitespace from a list of characters. -/
def trimL (l : List Char) : List Char :=
  ((l.dropWhile isSpaceCh).reverse.dropWhile isSpaceCh).reverse

/-- JavaScript `toLowerCase` on one character (the ASCII range, which is
all the hostnames and stderr text here use). -/
def toLowerCh (c : Char) : Char :=
  if 'A' ≤ c && c ≤ 'Z' then Char.ofNat (c.toNat + 32) else c

/-- JavaScript `toLowerCase` on a character list. -/
def lowerL (l : List Char) : List Char := l.map toLowerCh

/-- JavaScript `toLowerCase` on a string. -/
def jsToLower (s : String) : String := String.mk (lowerL s.toList)

/-- Model of JavaScript `Number(s)` on a character list: trims whitespace,
an empty string is 0, an optional sign followed by decimal digits with an
optional fractional part is its value, anything else is NaN. -/
def jsNumberL (l : List Char) : JSNum :=
  let t := trimL l
  if t.isEmpty then some 0
  else
    let sgn : ℚ := if t.headD ' ' = '-' then -1 else 1
    let rest := if t.headD ' ' = '-' ∨ t.headD ' ' = '+' then t.tail else t
    let intPart := rest.takeWhile isDigitCh
    let rest2 := rest.dropWhile isDigitCh
    if rest2.isEmpty then
      if intPart.isEmpty then none else some (sgn * digitsToNat intPart)
    else if rest2.headD ' ' = '.' then
      let frac := rest2.tail
      if frac.all isDigitCh && !(intPart.isEmpty && frac.isEmpty) then
        some (sgn * ((digitsToNat intPart : ℚ) +
          (digitsToNat frac : ℚ) / (10 : ℚ) ^ frac.length))
      else none
    else none

/-- Model of JavaScript `Number(s)` on a string. -/
def jsNumber (s : String) : JSNum := jsNumberL s.toList

/-- Model of JavaScript `String.prototype.split` with a one-character
separator: splits on every occurrence and keeps empty fields. -/
def splitList (sep : Char) : List Char → List (List Char)
  | [] => [[]]
  | c :: cs =>
      if c = sep then [] :: splitList sep cs
      else
        match splitList sep cs with
        | h :: t => (c :: h) :: t
        | [] => [[c]]

/-- `parseTimestamp` from `src/server/routes.ts` lines 44-49:
`timeStr.split(':').map(Number)`, then positional combination (3 parts ⇒
h·3600+m·60+s, 2 parts ⇒ m·60+s, otherwise `parts[0] || 0`). -/
def parseTimestamp (timeStr : String) : JSNum :=
  let parts := (splitList ':' timeStr.toList).map jsNumberL
  match parts with
  | [a, b, c] => jadd (jadd (jmul a (some 3600)) (jmul b (some 60))) c
  | [a, b] => jadd (jmul a (some 60)) b
  | a :: _ => some (jsOrDefault a 0)
  | [] => some 0

/-!
## URL model

`validateYouTubeUrl` calls the WHATWG `new URL(...)` constructor.  We model
the fragment of its behaviour the server can observe: a URL string has a
scheme (a letter followed by letters, digits, `+`, `-` or `.`, then `:`);
for the special schemes (`http`, `https`, `ws`, `wss`, `ftp`, `file`) any
run of slashes after the colon is skipped and an authority follows, whose
host part (after any userinfo, before any port) becomes the lowercased
`hostname`; an empty host in a special non-file scheme is a parse error.
For non-special schemes the hostname is present only after a literal `//`.
Parse failure is `none` (the constructor throwing). -/

/-- Scheme characters after the first, per RFC 3986 / WHATWG. -/
def isSchemeCh (c : Char) : Bool :=
  c.isAlpha || c.isDigit || c = '+' || c = '-' || c = '.'

/-- The WHATWG special schemes. -/
def specialSchemes : List String := ["http", "https", "ws", "wss", "ftp", "file"]

/-- The observable part of a parsed WHATWG URL. -/
structure JSURL where
  scheme : String
  hostname : String
deriving DecidableEq, Repr

/-- Split an authority into its host: drop userinfo (up to the last `@`),
then cut at the first `:` (port). -/
def hostOfAuthority (auth : List Char) : List Char :=
  let afterUser := if auth.contains '@' then (splitList '@' auth).getLastD [] else auth
  afterUser.takeWhile (· ≠ ':')

/-- Model of `new URL(s)`: `none` when the constructor would throw. -/
def parseURL (s : String) : Option JSURL :=
  let l := trimL s.toList
  let schemeChars := l.takeWhile (· ≠ ':')
  match schemeChars with
  | [] => none
  | c0 :: rest =>
      if ¬ c0.isAlpha then none
      else if ¬ rest.all isSchemeCh then none
      else if schemeChars.length = l.length then none  -- no ':' present
      else
        let scheme := String.mk (lowerL schemeChars)
        let after := l.drop (schemeChars.length + 1)
        if specialSchemes.contains scheme then
          let afterSlashes := after.dropWhile (· = '/')
          let authority := afterSlashes.takeWhile (fun c => c ≠ '/' && c ≠ '?' && c ≠ '#')
          let host := hostOfAuthority authority
          if host.isEmpty && scheme ≠ "file" then none
          else some ⟨scheme, String.mk (lowerL host)⟩
        else
          match after with
          | '/' :: '/' :: restA =>
              let authority := restA.takeWhile (fun c => c ≠ '/' && c ≠ '?' && c ≠ '#')
              some ⟨scheme, String.mk (lowerL (hostOfAuthority authority))⟩
          | _ => some ⟨scheme, ""⟩

/-- `validateYouTubeUrl` from `src/server/routes.ts` lines 51-56: parse the
string as a URL (false on failure) and check the lowercased hostname against
the literal allow-list. -/
def validateYouTubeUrl (urlString : String) : Bool :=
  match parseURL urlString with
  | none => false
  | some url =>
      ["www.youtube.com", "youtube.com", "youtu.be", "m.youtube.com"].contains
        (jsToLower url.hostname)

/-!
## Paths and the process runner

Paths are modelled as lists of segments of an absolute POSIX path (the
`isWindows` branch of the source is not modelled).  In Node,
`path.join(a, b)` concatenates with `/` and then normalizes, resolving `.`
and `..` segments and collapsing separators; on an absolute path a `..`
above the root is dropped.  `normAux` is that normalization as a stack
machine over the concatenated segment list. -/

/-- Node path normalization over segments of an absolute path: `""` and
`"."` are dropped, `".."` pops the last segment (a no-op at the root). -/
def normAux (stack : List String) : List String → List String
  | [] => stack
  | s :: rest =>
      if s = "" || s = "." then normAux stack rest
      else if s = ".." then normAux stack.dropLast rest
      else normAux (stack ++ [s]) rest

/-- Segments of a path string, split on `/`. -/
def pathSegs (p : String) : List String :=
  (splitList '/' p.toList).map String.mk

/-- `DOWNLOADS_DIR = path.join(process.cwd(), "downloads")`
(`src/server/routes.ts` line 58), with the working directory given as a
normalized absolute segment list. -/
def downloadsDir (cwd : List String) : List String := cwd ++ ["downloads"]

/-- `path.join(DOWNLOADS_DIR, filename)` as used by the crop handler
(line 174): concatenate and normalize. -/
def joinUnderDownloads (cwd : List String) (filename : String) : List String :=
  normAux [] (downloadsDir cwd ++ pathSegs filename)

/-- Case-insensitive substring test, modelling
`stderr.toLowerCase().includes("error")`. -/
def lowerIncludes (hay needle : String) : Bool :=
  (lowerL hay.toList).tails.any (fun t => needle.toList.isPrefixOf t)

/-- Outcome of the promise returned by `runCommand`. -/
inductive RunResult where
  | resolved (stdout : String)
  | rejected (message : String)
deriving DecidableEq, Repr

/-- The `close` handler of `runCommand` (`src/server/routes.ts` lines
28-38): exit code 0 resolves with the accumulated stdout; a non-zero exit
rejects with the stderr text only when stdout is empty (falsy) and the
lowercased stderr contains `"error"`, and otherwise still resolves with the
stdout.  (The separate `error` event for launch failures rejects with the
spawn error and is not part of this close-event model.) -/
def runCommandClose (code : Int) (stdout stderr : String) : RunResult :=
  if code = 0 then .resolved stdout
  else
    if stdout = "" && lowerIncludes stderr "error" then .rejected stderr
    else .resolved stdout

/-!
## Metadata cache and the three route handlers

`videoCache` is a JavaScript `Map<string, VideoCache>`; we model it as an
association list where `set` replaces any previous binding and `get` is
`List.lookup`.  `Date.now()` is an explicit `now : Nat` parameter
(milliseconds).  Each handler is embedded as a function from the request
and the ambient state to the cache after the call plus an observable
outcome; the outcome records the subprocess invocation it launches, if
any, since several claims are about what reaches `ffmpeg`/`yt-dlp`. -/

/-- The `VideoCache` interface (`src/server/routes.ts` lines 60-68). -/
structure VideoCacheEntry where
  title : String
  thumbnail : String
  duration : ℚ
  channel : String
  videoUrl : String
  audioUrl : String
  timestamp : Nat
deriving DecidableEq, Repr

/-- The in-memory `videoCache` map. -/
abbrev Cache := List (String × VideoCacheEntry)

/-- `videoCache.set(url, entry)`: replace any existing binding. -/
def cacheSet (c : Cache) (url : String) (e : VideoCacheEntry) : Cache :=
  (url, e) :: c.filter (fun p => p.1 ≠ url)

/-- The freshness window `1000 * 60 * 30` ms (line 85). -/
def freshnessWindowMs : Nat := 1000 * 60 * 30

/-- Model of JavaScript `parseFloat(s)`: trims leading whitespace and reads
the longest numeric prefix (optional sign, digits, optional fraction);
NaN when there is none. -/
def jsParseFloat (s : String) : JSNum :=
  let t := s.toList.dropWhile isSpaceCh
  let (sgn, rest) : ℚ × List Char :=
    match t with
    | '-' :: cs => (-1, cs)
    | '+' :: cs => (1, cs)
    | cs => (1, cs)
  let intPart := rest.takeWhile isDigitCh
  let rest2 := rest.dropWhile isDigitCh
  let (fracPart, _) : List Char × List Char :=
    match rest2 with
    | '.' :: fs => (fs.takeWhile isDigitCh, fs.dropWhile isDigitCh)
    | _ => ([], rest2)
  if intPart.isEmpty && fracPart.isEmpty then none
  else some (sgn * ((digitsToNat intPart : ℚ) +
    (digitsToNat fracPart : ℚ) / (10 : ℚ) ^ fracPart.length))

/-- Model of JavaScript `parseInt(s)` (radix 10 inferred): trims leading
whitespace and reads an optional sign plus the longest digit prefix; NaN
when there are no digits. -/
def jsParseInt (s : String) : Option Int :=
  let t := s.toList.dropWhile isSpaceCh
  let (sgn, rest) : Int × List Char :=
    match t with
    | '-' :: cs => (-1, cs)
    | '+' :: cs => (1, cs)
    | cs => (1, cs)
  let digits := rest.takeWhile isDigitCh
  if digits.isEmpty then none else some (sgn * digitsToNat digits)

/-- JavaScript `String.prototype.trim` on our string model. -/
def jsTrim (s : String) : String := String.mk (trimL s.toList)

/-- Fuel-based worker for the multi-character split; the fuel starts at
the length of the list, which the traversal never exceeds. -/
def splitOnAuxL (sep : List Char) : Nat → List Char → List (List Char)
  | 0, l => [l]
  | fuel + 1, l =>
      if sep.isPrefixOf l then [] :: splitOnAuxL sep fuel (l.drop sep.length)
      else
        match l with
        | [] => [[]]
        | c :: cs =>
            match splitOnAuxL sep fuel cs with
            | h :: t => (c :: h) :: t
            | [] => [[c]]

/-- Multi-character split used on the downloader output (split on a
newline and on the separator `|||`), with the JavaScript field-preserving
semantics for a non-empty separator. -/
def jsSplitOn (s sep : String) : List String :=
  (splitOnAuxL sep.toList s.toList.length s.toList).map String.mk

/-- JavaScript `a[i] || dflt` over a string array: out-of-bounds
(`undefined`) and the empty string are falsy. -/
def idxOrDefault (l : List String) (i : Nat) (dflt : String) : String :=
  match l.drop i with
  | [] => dflt
  | v :: _ => if v = "" then dflt else v

/-- Parsing of the downloader stdout into a cache entry
(`src/server/routes.ts` lines 107-117): first line `title|||thumbnail|||
duration|||uploader`, following lines the direct stream URLs. -/
def parseVideoInfoOutput (stdout : String) (now : Nat) : VideoCacheEntry :=
  let lines := jsSplitOn (jsTrim stdout) "\n"
  let meta := jsSplitOn (idxOrDefault lines 0 "") "|||"
  let title := match meta.drop 0 with
    | [] => "Unknown Video"
    | t :: _ => if t = "" then "Unknown Video" else jsTrim t
  let thumbnail := idxOrDefault meta 1 ""
  let duration := jsOrDefault (jsParseFloat (meta.getD 2 "")) 0
  let channel := idxOrDefault meta 3 "Unknown Channel"
  let videoUrl := idxOrDefault lines 1 ""
  let audioUrl := idxOrDefault lines 2 videoUrl
  { title, thumbnail, duration, channel, videoUrl, audioUrl, timestamp := now }

/-- Observable outcome of a `GET /api/video-info` call. -/
inductive InfoOutcome where
  | badRequest (message : String)
  | okFromCache (title thumbnail : String) (duration : ℚ) (channel : String)
  | okFresh (title thumbnail : String) (duration : ℚ) (channel : String)
  | toolError
deriving Repr

/-- The `GET /api/video-info` handler (`src/server/routes.ts` lines 79-124).
`toolResult` is what `runCommand` against the downloader would produce for
this URL (`none` for a rejected promise, which the `catch` turns into a
500); the subprocess only runs on a miss or a stale hit, and the cache is
only written after a successful run. -/
def videoInfoStep (c : Cache) (url : String) (now : Nat)
    (toolResult : Option String) : Cache × InfoOutcome :=
  if ¬ validateYouTubeUrl url then (c, .badRequest "Invalid URL")
  else
    match List.lookup url c with
    | some cached =>
        if (now : Int) - cached.timestamp < freshnessWindowMs then
          (c, .okFromCache cached.title cached.thumbnail cached.duration cached.channel)
        else
          match toolResult with
          | none => (c, .toolError)
          | some out =>
              let e := parseVideoInfoOutput out now
              (cacheSet c url e, .okFresh e.title e.thumbnail e.duration e.channel)
    | none =>
        match toolResult with
        | none => (c, .toolError)
        | some out =>
            let e := parseVideoInfoOutput out now
            (cacheSet c url e, .okFresh e.title e.thumbnail e.duration e.channel)

/-- The ffmpeg invocation built by `POST /api/fetch-segment`
(`src/server/routes.ts` lines 142-158), reduced to the fields the spec
talks about: the `-ss` seek and `-t` duration values, the input stream
locators, whether audio is a second input, and the output path. -/
structure SegmentInvocation where
  startSec : JSNum
  durationSec : JSNum
  videoUrl : String
  audioUrl : String
  twoInputs : Bool
  output : List String
deriving DecidableEq, Repr

/-- Observable outcome of a `POST /api/fetch-segment` call, up to the
point where `runCommand` is awaited: either the 400 "Session expired"
response (no subprocess) or the ffmpeg invocation that is launched. -/
inductive SegmentOutcome where
  | sessionExpired (message : String)
  | launched (inv : SegmentInvocation)
deriving DecidableEq, Repr

/-- The `POST /api/fetch-segment` handler (`src/server/routes.ts` lines
127-160) up to the subprocess launch: look the URL up in the cache (only
presence is tested), parse the two timestamps, subtract, and build the
ffmpeg argument vector around the cached stream locators.  The cache is
never written here. -/
def fetchSegmentStep (c : Cache) (url startTime endTime : String)
    (cwd : List String) (now : Nat) : SegmentOutcome :=
  match List.lookup url c with
  | none => .sessionExpired "Session expired. Reload video."
  | some cached =>
      let startSec := parseTimestamp startTime
      let endSec := parseTimestamp endTime
      let durationSec := jsub endSec startSec
      .launched
        { startSec, durationSec,
          videoUrl := cached.videoUrl, audioUrl := cached.audioUrl,
          twoInputs := cached.videoUrl ≠ cached.audioUrl,
          output := downloadsDir cwd ++ ["hq_" ++ toString now ++ ".mp4"] }

/-- The crop filter template
`crop=w=${targetW_expr}:h=ih:x=(iw-ow)*${posFactor}:y=0`
(`src/server/routes.ts` line 196): only the width expression and the
position factor vary, height is always `ih` and the x offset is always
`(iw-ow)` times the factor. -/
structure CropFilter where
  wExpr : String
  posFactor : ℚ
deriving DecidableEq, Repr

/-- The x offset the filter template denotes, for a source width `iw` and
output width `ow`: `(iw-ow)*posFactor`. -/
def cropOffsetX (iw ow : ℚ) (f : CropFilter) : ℚ := (iw - ow) * f.posFactor

/-- `targetW_expr` (lines 191-193): set for `9:16` and `1:1`, left as the
empty string for every other non-`16:9` ratio. -/
def targetW_expr (aspectRatio : String) : String :=
  if aspectRatio = "9:16" then "ih*9/16"
  else if aspectRatio = "1:1" then "ih"
  else ""

/-- `posFactor = (parseInt(position) || 50) / 100` (line 195): NaN and 0
are falsy, so they fall back to 50. -/
def posFactor (position : String) : ℚ :=
  (match jsParseInt position with
   | none => (50 : ℤ)
   | some n => if n = 0 then 50 else n) / 100

/-- The video part of the crop invocation: a pure stream copy for `16:9`,
a `libx264` re-encode through the crop filter otherwise. -/
inductive CropVideoMode where
  | streamCopy
  | reencode (filter : CropFilter)
deriving DecidableEq, Repr

/-- The ffmpeg invocation built by `POST /api/process-crop`
(lines 183-214), reduced to input path, video mode and output path. -/
structure CropInvocation where
  inputPath : List String
  mode : CropVideoMode
  output : List String
deriving DecidableEq, Repr

/-- Observable outcome of a `POST /api/process-crop` call, up to the point
where `runCommand` is awaited: the 404 when the joined input path does not
exist (no subprocess), or the launched invocation. -/
inductive CropOutcome where
  | sourceMissing (message : String)
  | launched (inv : CropInvocation)
deriving DecidableEq, Repr

/-- The `POST /api/process-crop` handler (`src/server/routes.ts` lines
171-216) up to the subprocess launch.  `fsExists` is the `existsSync`
oracle over normalized absolute paths. -/
def processCropStep (fsExists : List String → Bool) (cwd : List String)
    (filename aspectRatio position : String) (now : Nat) : CropOutcome :=
  let inputPath := joinUnderDownloads cwd filename
  if ¬ fsExists inputPath then
    .sourceMissing "Source file not found. Try fetching the clip again."
  else
    .launched
      { inputPath,
        mode :=
          if aspectRatio ≠ "16:9" then
            .reencode ⟨targetW_expr aspectRatio, posFactor position⟩
          else .streamCopy,
        output := downloadsDir cwd ++ ["final_" ++ toString now ++ ".mp4"] }

/-!
## The timestamp formatter and cache reachability

The formatter half of the Timestamp Codec lives in `@shared/schema`
(`secondsToTime`, imported by the client), which is not among the provided
source files, so it is modelled from the spec. -/

/-- Decimal digit character of `n < 10`. -/
def digitCh (n : Nat) : Char := Char.ofNat ('0'.toNat + n)

/-- Decimal digits of a natural number, most significant first. -/
def natToDigits (n : Nat) : List Char :=
  if _h : n < 10 then [digitCh n]
  else natToDigits (n / 10) ++ [digitCh (n % 10)]
decreasing_by
  exact Nat.div_lt_self (by omega) (by omega)

/-- Zero-pad a component to two digits. -/
def pad2 (n : Nat) : List Char :=
  if n < 10 then '0' :: natToDigits n else natToDigits n

/-- Modelled from the spec: the format half of the Timestamp Codec,
`format(seconds) → text` (the `secondsToTime` function of
`@shared/schema`, not under the provided sources), "always producing
zero-padded `H:MM:SS`": unpadded hours, two-digit minutes and seconds. -/
def formatTimestamp (s : Nat) : String :=
  String.mk (natToDigits (s / 3600) ++ [':'] ++ pad2 ((s / 60) % 60)
    ++ [':'] ++ pad2 (s % 60))

/-- A well-formed zero-padded `H:MM:SS` string: canonical decimal hours
(no leading zero), two-digit minutes and seconds below 60. -/
def IsWellFormedHMS (t : String) : Prop :=
  ∃ h m s : Nat, m < 60 ∧ s < 60 ∧
    t.toList = natToDigits h ++ [':'] ++ pad2 m ++ [':'] ++ pad2 s

/-- Cache states reachable through the route handlers: the map starts
empty and only the video-info handler ever writes it (the other two
handlers only read). -/
inductive CacheReachable : Cache → Prop
  | init : CacheReachable []
  | info (c : Cache) (url : String) (now : Nat) (toolResult : Option String) :
      CacheReachable c → CacheReachable (videoInfoStep c url now toolResult).1

/-- A concrete cache entry used in concrete-input theorems: distinct video
and audio locators, fetched at time 0. -/
def sampleEntry : VideoCacheEntry :=
  { title := "Demo Video", thumbnail := "https://img.example/t.jpg",
    duration := 120, channel := "Demo Channel",
    videoUrl := "https://cdn.example/video?expire=1", 
    audioUrl := "https://cdn.example/audio?expire=1", timestamp := 0 }

/-- A concrete allow-listed URL used in concrete-input theorems. -/
def sampleUrl : String := "https://www.youtube.com/watch?v=abc123"


/-!
## Claims

One theorem per claim, with counterexamples and witnesses as separate
closed theorems.
-/

/-- C1 counterexample: the claim says `runCommand` fails for every
non-zero exit code, but a process that exits with code 1 having produced
any stdout (here `"frame output"`, empty stderr) still resolves with that
stdout, and so does a silent non-zero exit (empty stdout, stderr without
the word `error`). -/
theorem C1_counterexample :
    (1 : Int) ≠ 0 ∧
    runCommandClose 1 "frame output" "" = .resolved "frame output" ∧
    runCommandClose 1 "" "exited abnormally" = .resolved "" := by
  decide

/-- C1 (amended): the close handler of `runCommand` resolves with the
accumulated stdout on exit code 0; on a non-zero exit it rejects (with the
stderr text) exactly when the accumulated stdout is empty and the
lowercased stderr contains `"error"`, and otherwise still resolves with
the accumulated stdout. -/
theorem C1_runCommand_exit_behavior (code : Int) (stdout stderr : String) :
    (code = 0 → runCommandClose code stdout stderr = .resolved stdout) ∧
    (code ≠ 0 → stdout = "" → lowerIncludes stderr "error" = true →
      runCommandClose code stdout stderr = .rejected stderr) ∧
    (code ≠ 0 → (stdout ≠ "" ∨ lowerIncludes stderr "error" = false) →
      runCommandClose code stdout stderr = .resolved stdout) := by
  unfold runCommandClose
  refine ⟨fun h => by simp [h], fun h h1 h2 => by simp [h, h1, h2], fun h h1 => ?_⟩
  rcases h1 with h1 | h1 <;> simp [h, h1]

/-- C1 witness: the amended behaviour at three concrete exits. -/
theorem C1_witness :
    runCommandClose 0 "ok" "" = .resolved "ok" ∧
    runCommandClose 1 "" "Error: spawn failed" = .rejected "Error: spawn failed" ∧
    runCommandClose 1 "frame output" "" = .resolved "frame output" :=
  ⟨(C1_runCommand_exit_behavior 0 "ok" "").1 rfl,
   (C1_runCommand_exit_behavior 1 "" "Error: spawn failed").2.1 (by decide) rfl (by decide),
   (C1_runCommand_exit_behavior 1 "frame output" "").2.2 (by decide) (Or.inl (by decide))⟩

/-- C4: evaluation at the failing input.  `posFactor` sends position
`"0"` to 1/2 — the `parseInt(position) || 50` default treats the number 0
as absent — so on a 1920-wide source cropped to width 607.5 the offset is
656.25, the midpoint, where for `horizontalPositionPercent = 0` the claim
(and the client slider, whose leftmost stop is 0) requires offset 0.
Positions 1..100 do follow the `(iw-ow)*position/100` formula, as the
sample points 50 and 100 show. -/
theorem C4_position_zero_failing_input :
    posFactor "0" = 1/2 ∧ posFactor "50" = 1/2 ∧ posFactor "100" = 1 ∧
    posFactor "7" = 7/100 ∧
    cropOffsetX 1920 (1215/2) ⟨targetW_expr "9:16", posFactor "0"⟩ = 2625/4 ∧
    (2625/4 : ℚ) ≠ 0 := by
  refine ⟨?_, ?_, ?_, ?_, ?_, by norm_num⟩ <;>
    simp +decide [posFactor, jsParseInt, digitsToNat, cropOffsetX, targetW_expr] <;>
    norm_num

/-- C6: evaluation at the failing input.  With a cache entry present
(fetched at the same instant, so freshness is not at issue), a request
with `startTime = "00:00:10"` and `endTime = "00:00:05"` — end before
start — is not rejected: no InvalidTimeRange error exists in the handler,
and ffmpeg is launched with `-t -5`. -/
theorem C6_negative_duration_failing_input :
    fetchSegmentStep [(sampleUrl, sampleEntry)] sampleUrl
        "00:00:10" "00:00:05" ["app"] 0 =
      .launched { startSec := some 10, durationSec := some (-5),
                  videoUrl := "https://cdn.example/video?expire=1",
                  audioUrl := "https://cdn.example/audio?expire=1",
                  twoInputs := true,
                  output := ["app", "downloads", "hq_0.mp4"] } := by
  simp +decide [fetchSegmentStep, parseTimestamp, splitList, jsNumberL, trimL,
    digitsToNat, jadd, jsub, jmul, sampleEntry, sampleUrl, downloadsDir]
  norm_num

/-- C5: evaluation at the failing input.  The 16:9 branch is a pure
stream copy and the 9:16 and 1:1 branches derive the crop width from the
source height, as the claim says; but for aspect ratio `"4:5"` — a member
of the CropSpec set that the client offers — `targetW_expr` stays empty,
so the handler re-encodes through the malformed filter
`crop=w=:h=ih:...` instead of one with width `ih*4/5`. -/
theorem C5_aspect45_failing_input :
    targetW_expr "9:16" = "ih*9/16" ∧ targetW_expr "1:1" = "ih" ∧
    targetW_expr "4:5" = "" ∧
    processCropStep (fun _ => true) ["app"] "clip.mp4" "16:9" "50" 7 =
      .launched { inputPath := ["app", "downloads", "clip.mp4"],
                  mode := .streamCopy,
                  output := ["app", "downloads", "final_7.mp4"] } ∧
    processCropStep (fun _ => true) ["app"] "clip.mp4" "4:5" "50" 7 =
      .launched { inputPath := ["app", "downloads", "clip.mp4"],
                  mode := .reencode ⟨"", 1/2⟩,
                  output := ["app", "downloads", "final_7.mp4"] } := by
  refine ⟨by decide, by decide, by decide, ?_, ?_⟩ <;>
    (simp +decide [processCropStep, joinUnderDownloads, downloadsDir, pathSegs,
      splitList, normAux, targetW_expr, posFactor, jsParseInt, digitsToNat]
     try norm_num)

/-- C2 counterexample: an entry fetched at time 0 queried at
`now = freshnessWindowMs` is expired (`now − fetchedAt ≥` the 30-minute
window), yet `POST /api/fetch-segment` does not fail with the
session-expired error: it launches the transcoder with the stale stream
locators of that entry. -/
theorem C2_counterexample :
    (freshnessWindowMs : Int) - (sampleEntry.timestamp : Int) ≥ freshnessWindowMs ∧
    fetchSegmentStep [(sampleUrl, sampleEntry)] sampleUrl
        "00:00:01" "00:00:02" ["app"] freshnessWindowMs =
      .launched { startSec := some 1, durationSec := some 1,
                  videoUrl := "https://cdn.example/video?expire=1",
                  audioUrl := "https://cdn.example/audio?expire=1",
                  twoInputs := true,
                  output := ["app", "downloads", "hq_1800000.mp4"] } := by
  refine ⟨by decide, ?_⟩
  simp +decide [fetchSegmentStep, parseTimestamp, splitList, jsNumberL, trimL,
    digitsToNat, jadd, jsub, jmul, sampleEntry, sampleUrl, downloadsDir,
    freshnessWindowMs]
  norm_num

/-- C2 (amended): the fetch-segment handler fails with the
session-expired error exactly when the cache has no entry at all for the
URL; the freshness of an entry that is present is never consulted — the
handler launches the transcoder with the stored stream locators whatever
their age, so only absence (never staleness) blocks extraction. -/
theorem C2_fetchSegment_presence_only (c : Cache) (url startTime endTime : String)
    (cwd : List String) (now : Nat) :
    (List.lookup url c = none →
      fetchSegmentStep c url startTime endTime cwd now =
        .sessionExpired "Session expired. Reload video.") ∧
    (∀ e, List.lookup url c = some e →
      fetchSegmentStep c url startTime endTime cwd now =
        .launched { startSec := parseTimestamp startTime,
                    durationSec := jsub (parseTimestamp endTime) (parseTimestamp startTime),
                    videoUrl := e.videoUrl, audioUrl := e.audioUrl,
                    twoInputs := e.videoUrl ≠ e.audioUrl,
                    output := downloadsDir cwd ++ ["hq_" ++ toString now ++ ".mp4"] }) := by
  constructor
  · intro h
    simp [fetchSegmentStep, h]
  · intro e h
    simp [fetchSegmentStep, h]

/-- C2 witness: the amended behaviour at concrete inputs — the empty
cache yields the session-expired error, and a cache holding only an
expired entry still launches with its locators. -/
theorem C2_witness :
    fetchSegmentStep [] sampleUrl "00:00:01" "00:00:02" ["app"] freshnessWindowMs =
      .sessionExpired "Session expired. Reload video." ∧
    fetchSegmentStep [(sampleUrl, sampleEntry)] sampleUrl
        "00:00:01" "00:00:02" ["app"] freshnessWindowMs =
      .launched { startSec := parseTimestamp "00:00:01",
                  durationSec := jsub (parseTimestamp "00:00:02") (parseTimestamp "00:00:01"),
                  videoUrl := sampleEntry.videoUrl, audioUrl := sampleEntry.audioUrl,
                  twoInputs := sampleEntry.videoUrl ≠ sampleEntry.audioUrl,
                  output := downloadsDir ["app"] ++ ["hq_" ++ toString freshnessWindowMs ++ ".mp4"] } :=
  ⟨(C2_fetchSegment_presence_only [] sampleUrl "00:00:01" "00:00:02" ["app"] freshnessWindowMs).1 rfl,
   (C2_fetchSegment_presence_only [(sampleUrl, sampleEntry)] sampleUrl "00:00:01" "00:00:02"
      ["app"] freshnessWindowMs).2 sampleEntry (by decide)⟩

/-- Normalization processes an appended segment list left to right. -/
theorem normAux_append (s a b : List String) :
    normAux s (a ++ b) = normAux (normAux s a) b := by
  induction a generalizing s with
  | nil => rfl
  | cons x xs ih =>
      simp only [List.cons_append, normAux]
      split
      · exact ih s
      · split
        · exact ih s.dropLast
        · exact ih (s ++ [x])

/-- Without `".."` segments the stack only ever grows, so the starting
stack stays a prefix of the normalized result. -/
theorem normAux_prefix_of_no_dotdot (s : List String) (l : List String)
    (h : ".." ∉ l) : s <+: normAux s l := by
  induction l generalizing s with
  | nil => exact List.prefix_refl s
  | cons x xs ih =>
      simp only [List.mem_cons, not_or] at h
      simp only [normAux]
      split
      · exact ih s h.2
      · split
        · exact absurd (Eq.symm (by assumption)) h.1
        · exact List.IsPrefix.trans (List.prefix_append s [x]) (ih (s ++ [x]) h.2)

/-- C3 counterexample: the client-supplied `intermediateFilename`
`"../escape.mp4"` is resolved by `path.join` to a path *outside* the
downloads directory, and when a file exists there the handler launches
ffmpeg on it — the resolved path does not lie under the managed storage
directory for every client-supplied filename. -/
theorem C3_counterexample :
    joinUnderDownloads ["app"] "../escape.mp4" = ["app", "escape.mp4"] ∧
    (downloadsDir ["app"]).isPrefixOf ["app", "escape.mp4"] = false ∧
    processCropStep (fun p => p == ["app", "escape.mp4"]) ["app"]
        "../escape.mp4" "16:9" "50" 7 =
      .launched { inputPath := ["app", "escape.mp4"],
                  mode := .streamCopy,
                  output := ["app", "downloads", "final_7.mp4"] } := by
  refine ⟨by decide, by decide, ?_⟩
  simp +decide [processCropStep, joinUnderDownloads, downloadsDir, pathSegs,
    splitList, normAux]

/-- C3 (amended): the crop handler joins the client-supplied filename
onto the downloads directory with path normalization, so the resolved
path is guaranteed to lie under the (normalized) downloads directory only
when the filename contains no `".."` traversal segment; and whenever no
file exists at the resolved path the handler answers with the
source-file-missing error and launches no subprocess. -/
theorem C3_processCrop_path_resolution (fsExists : List String → Bool)
    (cwd : List String) (filename aspectRatio position : String) (now : Nat) :
    (".." ∉ pathSegs filename →
      normAux [] (downloadsDir cwd) <+: joinUnderDownloads cwd filename) ∧
    (fsExists (joinUnderDownloads cwd filename) = false →
      processCropStep fsExists cwd filename aspectRatio position now =
        .sourceMissing "Source file not found. Try fetching the clip again.") := by
  constructor
  · intro h
    unfold joinUnderDownloads
    rw [normAux_append]
    exact normAux_prefix_of_no_dotdot _ _ h
  · intro h
    simp [processCropStep, h]

/-- C3 witness: the amended behaviour at a traversal-free filename and at
an absent file. -/
theorem C3_witness :
    normAux [] (downloadsDir ["app"]) <+: joinUnderDownloads ["app"] "clip.mp4" ∧
    processCropStep (fun _ => false) ["app"] "clip.mp4" "9:16" "50" 7 =
      .sourceMissing "Source file not found. Try fetching the clip again." :=
  ⟨(C3_processCrop_path_resolution (fun _ => false) ["app"] "clip.mp4" "9:16" "50" 7).1
      (by decide),
   (C3_processCrop_path_resolution (fun _ => false) ["app"] "clip.mp4" "9:16" "50" 7).2 rfl⟩

/-- C7 counterexample: the claim describes the allow-list as the
platform web, mobile and music-subdomain hosts, but the music subdomain
parses to a perfectly good hostname and is rejected, while the short-link
host `youtu.be` (not in the claimed list) is accepted. -/
theorem C7_counterexample :
    parseURL "https://music.youtube.com/watch?v=abc" =
      some { scheme := "https", hostname := "music.youtube.com" } ∧
    validateYouTubeUrl "https://music.youtube.com/watch?v=abc" = false ∧
    validateYouTubeUrl "https://youtu.be/abc" = true := by
  decide

/-- C7 (amended): the validator returns false on URL parse failure
without throwing (it is a total function), and on parse success returns
true iff the lowercased hostname is literally one of
`www.youtube.com`, `youtube.com`, `youtu.be`, `m.youtube.com` — the
platform web, short-link and mobile hosts; no wildcard or suffix
matching, and the music subdomain is not in the list. -/
theorem C7_validate_exact_allowlist (s : String) :
    (parseURL s = none → validateYouTubeUrl s = false) ∧
    (validateYouTubeUrl s = true ↔ ∃ u, parseURL s = some u ∧
      jsToLower u.hostname ∈
        ["www.youtube.com", "youtube.com", "youtu.be", "m.youtube.com"]) := by
  unfold validateYouTubeUrl
  cases h : parseURL s with
  | none => simp [h]
  | some u => simp [h, List.contains, List.elem_eq_mem]

/-- C7 witness: the amended behaviour at a malformed URL-free string and
at an allow-listed host. -/
theorem C7_witness :
    validateYouTubeUrl "not a url" = false ∧
    validateYouTubeUrl "https://YouTube.com/watch?v=x" = true :=
  ⟨(C7_validate_exact_allowlist "not a url").1 (by decide),
   (C7_validate_exact_allowlist "https://YouTube.com/watch?v=x").2.mpr
     ⟨{ scheme := "https", hostname := "youtube.com" }, by decide, by decide⟩⟩

/-- NaN propagation facts for the JavaScript arithmetic model. -/
theorem jadd_none_right (x : JSNum) : jadd x none = none := by cases x <;> rfl

/-- NaN on the left of `+` propagates. -/
theorem jadd_none_left (x : JSNum) : jadd none x = none := rfl

/-- NaN on the left of `*` propagates. -/
theorem jmul_none_left (x : JSNum) : jmul none x = none := rfl

/-- NaN on the right of `*` propagates. -/
theorem jmul_none_right (x : JSNum) : jmul x none = none := by cases x <;> rfl

/-- C8 counterexample: malformed two- and three-part inputs do not yield
0 — the NaN produced by `Number` on a non-numeric part propagates through
the arithmetic, so `parseTimestamp` returns NaN, a non-numeric result. -/
theorem C8_counterexample :
    parseTimestamp "a:b" = none ∧
    parseTimestamp "1:b:3" = none ∧
    (none : JSNum) ≠ some 0 := by
  refine ⟨by rfl, by rfl, by decide⟩

/-- C8 (amended): the parser is total (never throws), and a malformed
input degrades to 0 only in the one-part (and four-or-more-part) shapes,
where the `parts[0] || 0` fallback applies; a two- or three-part input
with any non-numeric part instead yields NaN, propagated by the
arithmetic. -/
theorem C8_parseTimestamp_malformed (s : String) :
    ((splitList ':' s.toList).length ≠ 2 ∧ (splitList ':' s.toList).length ≠ 3 →
      ∃ q : ℚ, parseTimestamp s = some q) ∧
    ((splitList ':' s.toList).length = 1 →
      jsNumberL ((splitList ':' s.toList).headD []) = none →
      parseTimestamp s = some 0) ∧
    (((splitList ':' s.toList).length = 2 ∨ (splitList ':' s.toList).length = 3) →
      (∃ p ∈ splitList ':' s.toList, jsNumberL p = none) →
      parseTimestamp s = none) := by
  unfold parseTimestamp
  rcases hl : splitList ':' s.toList with _ | ⟨a, _ | ⟨b, _ | ⟨c, rest⟩⟩⟩
  · exact ⟨fun _ => ⟨0, rfl⟩, by simp, by simp⟩
  · refine ⟨fun _ => ⟨jsOrDefault (jsNumberL a) 0, rfl⟩, fun _ h => ?_, by simp⟩
    simp only [List.headD] at h
    simp [h, jsOrDefault]
  · refine ⟨by simp, by simp, fun _ h => ?_⟩
    simp only [List.mem_cons, List.not_mem_nil, or_false, exists_eq_or_imp,
      exists_eq_left] at h
    rcases h with h | h <;>
      simp [h, jadd_none_left, jadd_none_right, jmul_none_left, jmul_none_right]
  · rcases rest with _ | ⟨d, rest⟩
    · refine ⟨by simp, by simp, fun _ h => ?_⟩
      simp only [List.mem_cons, List.not_mem_nil, or_false, exists_eq_or_imp,
        exists_eq_left] at h
      rcases h with h | h | h <;>
        simp [h, jadd_none_left, jadd_none_right, jmul_none_left, jmul_none_right]
    · exact ⟨fun _ => ⟨jsOrDefault (jsNumberL a) 0, rfl⟩, by simp, by simp⟩

/-- C8 witness: the amended behaviour at a malformed one-part input and a
malformed two-part input. -/
theorem C8_witness :
    parseTimestamp "abc" = some 0 ∧ parseTimestamp "a:b" = none :=
  ⟨(C8_parseTimestamp_malformed "abc").2.1 (by rfl) (by rfl),
   (C8_parseTimestamp_malformed "a:b").2.2 (Or.inl (by rfl)) ⟨['a'], by decide, by rfl⟩⟩

/-- Digit characters produced by `digitCh` read back to their value. -/
theorem digitCh_isDigit_and_val {n : Nat} (h : n < 10) :
    isDigitCh (digitCh n) = true ∧ (digitCh n).toNat - '0'.toNat = n := by
  interval_cases n <;> exact ⟨by decide, by decide⟩

/-- Every character of `natToDigits n` is a decimal digit. -/
theorem natToDigits_all_digits (n : Nat) : ∀ c ∈ natToDigits n, isDigitCh c = true := by
  induction n using Nat.strong_induction_on with
  | _ n ih =>
      unfold natToDigits
      split
      · intro c hc
        simp only [List.mem_singleton] at hc
        subst hc
        exact (digitCh_isDigit_and_val (by omega)).1
      · intro c hc
        rcases List.mem_append.mp hc with hc | hc
        · exact ih (n / 10) (Nat.div_lt_self (by omega) (by omega)) c hc
        · simp only [List.mem_singleton] at hc
          subst hc
          exact (digitCh_isDigit_and_val (Nat.mod_lt n (by omega))).1

/-- `natToDigits` never produces the empty list. -/
theorem natToDigits_ne_nil (n : Nat) : natToDigits n ≠ [] := by
  unfold natToDigits
  split
  · simp
  · simp

/-- Reading one more trailing digit shifts the accumulated value. -/
theorem digitsToNat_append_digit (l : List Char) (c : Char) :
    digitsToNat (l ++ [c]) = 10 * digitsToNat l + (c.toNat - '0'.toNat) := by
  simp [digitsToNat, List.foldl_append]

/-- The decimal digits of `n` read back to `n`. -/
theorem digitsToNat_natToDigits (n : Nat) : digitsToNat (natToDigits n) = n := by
  induction n using Nat.strong_induction_on with
  | _ n ih =>
      unfold natToDigits
      split
      · have hv := (digitCh_isDigit_and_val (show n < 10 by omega)).2
        simp only [digitsToNat, List.foldl_cons, List.foldl_nil, Nat.mul_zero,
          Nat.zero_add] at hv ⊢
        exact hv
      · rw [digitsToNat_append_digit,
          ih (n / 10) (Nat.div_lt_self (by omega) (by omega)),
          (digitCh_isDigit_and_val (Nat.mod_lt n (by omega))).2]
        omega

/-- Every character of `pad2 n` is a decimal digit. -/
theorem pad2_all_digits (n : Nat) : ∀ c ∈ pad2 n, isDigitCh c = true := by
  unfold pad2
  split
  · intro c hc
    rcases List.mem_cons.mp hc with hc | hc
    · subst hc; decide
    · exact natToDigits_all_digits n c hc
  · exact natToDigits_all_digits n

/-- `pad2` never produces the empty list. -/
theorem pad2_ne_nil (n : Nat) : pad2 n ≠ [] := by
  unfold pad2
  split
  · simp
  · exact natToDigits_ne_nil n

/-- The zero-padded digits of `n` read back to `n`. -/
theorem digitsToNat_pad2 (n : Nat) : digitsToNat (pad2 n) = n := by
  unfold pad2
  split
  · have : digitsToNat ('0' :: natToDigits n) = digitsToNat (natToDigits n) := by
      simp [digitsToNat]
    rw [this, digitsToNat_natToDigits]
  · exact digitsToNat_natToDigits n

/-- A decimal digit is not JavaScript whitespace. -/
theorem digit_not_space {c : Char} (h : isDigitCh c = true) : isSpaceCh c = false := by
  unfold isSpaceCh
  by_cases h1 : c = ' '
  · subst h1; exact absurd h (by decide)
  · by_cases h2 : c = '\t'
    · subst h2; exact absurd h (by decide)
    · by_cases h3 : c = '\n'
      · subst h3; exact absurd h (by decide)
      · by_cases h4 : c = '\r'
        · subst h4; exact absurd h (by decide)
        · simp [h1, h2, h3, h4]

/-- A decimal digit is not the colon separator. -/
theorem digit_ne_colon {c : Char} (h : isDigitCh c = true) : c ≠ ':' :=
  fun heq => absurd (heq ▸ h) (by decide)

/-- A decimal digit is not a sign character. -/
theorem digit_ne_sign {c : Char} (h : isDigitCh c = true) : c ≠ '-' ∧ c ≠ '+' :=
  ⟨fun heq => absurd (heq ▸ h) (by decide), fun heq => absurd (heq ▸ h) (by decide)⟩

/-- `dropWhile` is the identity when the predicate fails everywhere. -/
theorem dropWhile_false {p : Char → Bool} {l : List Char}
    (h : ∀ c ∈ l, p c = false) : l.dropWhile p = l := by
  cases l with
  | nil => rfl
  | cons c cs => simp [List.dropWhile_cons, h c (List.mem_cons_self c cs)]

/-- Trimming does not touch an all-digit list. -/
theorem trimL_of_digits {l : List Char} (h : ∀ c ∈ l, isDigitCh c = true) :
    trimL l = l := by
  unfold trimL
  rw [dropWhile_false (fun c hc => digit_not_space (h c hc)),
    dropWhile_false (fun c hc => digit_not_space (h c (List.mem_reverse.mp hc))),
    List.reverse_reverse]

/-- JavaScript `Number` on a non-empty all-digit list is its decimal value. -/
theorem jsNumberL_of_digits {l : List Char} (hne : l ≠ [])
    (h : ∀ c ∈ l, isDigitCh c = true) :
    jsNumberL l = some ((digitsToNat l : ℚ)) := by
  rcases l with _ | ⟨c, cs⟩
  · exact absurd rfl hne
  · have hc := h c (List.mem_cons_self c cs)
    have hsign := digit_ne_sign hc
    have htake : (c :: cs).takeWhile isDigitCh = c :: cs :=
      List.takeWhile_eq_self_iff.mpr (fun x hx => by simp [h x hx])
    have hdrop : (c :: cs).dropWhile isDigitCh = [] :=
      List.dropWhile_eq_nil_iff.mpr (fun x hx => by simp [h x hx])
    simp [jsNumberL, trimL_of_digits h, hsign.1, hsign.2, htake, hdrop]

/-- A list without the separator splits into a single field. -/
theorem splitList_of_not_mem {sep : Char} {l : List Char} (h : sep ∉ l) :
    splitList sep l = [l] := by
  induction l with
  | nil => rfl
  | cons c cs ih =>
      simp only [List.mem_cons, not_or] at h
      have hcs : ¬ c = sep := fun hh => h.1 hh.symm
      simp [splitList, hcs, ih h.2]

/-- Splitting a list that starts with a separator-free field followed by
a separator peels off that field. -/
theorem splitList_append_sep {sep : Char} {a rest : List Char} (h : sep ∉ a) :
    splitList sep (a ++ sep :: rest) = a :: splitList sep rest := by
  induction a with
  | nil => simp [splitList]
  | cons c cs ih =>
      simp only [List.mem_cons, not_or] at h
      have hcs : ¬ c = sep := fun hh => h.1 hh.symm
      simp only [List.cons_append, splitList, if_neg hcs, List.append_eq]
      rw [ih h.2]

/-- Parsing a canonical `H:MM:SS` rendering recovers the positional
value. -/
theorem parseTimestamp_canonical (h m sec : Nat) :
    parseTimestamp (String.mk (natToDigits h ++ [':'] ++ pad2 m ++ [':'] ++ pad2 sec)) =
      some ((h * 3600 + m * 60 + sec : Nat) : ℚ) := by
  have h1 : ':' ∉ natToDigits h :=
    fun hc => absurd (natToDigits_all_digits h ':' hc) (by decide)
  have h2 : ':' ∉ pad2 m := fun hc => absurd (pad2_all_digits m ':' hc) (by decide)
  have h3 : ':' ∉ pad2 sec := fun hc => absurd (pad2_all_digits sec ':' hc) (by decide)
  have hsplit : splitList ':' (natToDigits h ++ [':'] ++ pad2 m ++ [':'] ++ pad2 sec)
      = [natToDigits h, pad2 m, pad2 sec] := by
    have : natToDigits h ++ [':'] ++ pad2 m ++ [':'] ++ pad2 sec
        = natToDigits h ++ ':' :: (pad2 m ++ ':' :: pad2 sec) := by
      simp [List.append_assoc]
    rw [this, splitList_append_sep h1, splitList_append_sep h2,
      splitList_of_not_mem h3]
  have htl : (String.mk (natToDigits h ++ [':'] ++ pad2 m ++ [':'] ++ pad2 sec)).toList
      = natToDigits h ++ [':'] ++ pad2 m ++ [':'] ++ pad2 sec := rfl
  unfold parseTimestamp
  rw [htl, hsplit]
  simp only [List.map_cons, List.map_nil,
    jsNumberL_of_digits (natToDigits_ne_nil h) (natToDigits_all_digits h),
    jsNumberL_of_digits (pad2_ne_nil m) (pad2_all_digits m),
    jsNumberL_of_digits (pad2_ne_nil sec) (pad2_all_digits sec),
    digitsToNat_natToDigits, digitsToNat_pad2, jmul, jadd]
  push_cast
  ring_nf

/-- C9: the Timestamp Codec round-trips — `parse(format(s)) = s` for
every non-negative integer number of seconds, and `format(parse(t)) = t`
for every well-formed zero-padded `H:MM:SS` string `t`. -/
theorem C9_timestamp_roundtrip :
    (∀ s : Nat, parseTimestamp (formatTimestamp s) = some ((s : ℚ))) ∧
    (∀ t : String, IsWellFormedHMS t →
      ∃ v : Nat, parseTimestamp t = some ((v : ℚ)) ∧ formatTimestamp v = t) := by
  constructor
  · intro s
    unfold formatTimestamp
    rw [parseTimestamp_canonical]
    congr 1
    norm_cast
    omega
  · intro t ht
    obtain ⟨h, m, sec, hm, hs, heq⟩ := ht
    have hteq : t = String.mk (natToDigits h ++ [':'] ++ pad2 m ++ [':'] ++ pad2 sec) := by
      calc t = String.mk t.toList := by cases t; rfl
        _ = _ := by rw [heq]
    refine ⟨h * 3600 + m * 60 + sec, ?_, ?_⟩
    · rw [hteq, parseTimestamp_canonical]
    · unfold formatTimestamp
      have e1 : (h * 3600 + m * 60 + sec) / 3600 = h := by omega
      have e2 : ((h * 3600 + m * 60 + sec) / 60) % 60 = m := by omega
      have e3 : (h * 3600 + m * 60 + sec) % 60 = sec := by omega
      rw [e1, e2, e3]
      exact hteq.symm

/-- C9 witness: the round trip at 3723 seconds and at the well-formed
string `"1:02:03"`. -/
theorem C9_witness :
    parseTimestamp (formatTimestamp 3723) = some ((3723 : Nat) : ℚ) ∧
    IsWellFormedHMS "1:02:03" ∧
    (∃ v : Nat, parseTimestamp "1:02:03" = some ((v : ℚ)) ∧
      formatTimestamp v = "1:02:03") :=
  ⟨C9_timestamp_roundtrip.1 3723,
   ⟨1, 2, 3, by omega, by omega, by simp +decide [natToDigits, pad2, digitCh]⟩,
   C9_timestamp_roundtrip.2 "1:02:03"
     ⟨1, 2, 3, by omega, by omega, by simp +decide [natToDigits, pad2, digitCh]⟩⟩

/-- A successful association-list lookup produces a member pair. -/
theorem lookup_mem {c : Cache} {url : String} {e : VideoCacheEntry}
    (h : List.lookup url c = some e) : (url, e) ∈ c := by
  induction c with
  | nil => exact absurd h (by simp)
  | cons p ps ih =>
      rcases p with ⟨k, v⟩
      by_cases hk : url = k
      · subst hk
        have hb : (url == url) = true := beq_self_eq_true url
        simp only [List.lookup, hb, Option.some.injEq] at h
        subst h
        exact List.mem_cons_self _ _
      · have hb : (url == k) = false := beq_false_of_ne hk
        simp only [List.lookup, hb] at h
        exact List.mem_cons_of_mem _ (ih h)

/-- C10: every key in a reachable `videoCache` state passed the URL
allow-list check — entries are inserted only by the video-info handler
after successful validation — and therefore the fetch-segment handler,
which launches ffmpeg only on a cache hit, never launches a subprocess
for a URL that was not validated. -/
theorem C10_cache_only_validated (c : Cache) (hr : CacheReachable c) :
    (∀ p ∈ c, validateYouTubeUrl p.1 = true) ∧
    (∀ url startTime endTime cwd now inv,
      fetchSegmentStep c url startTime endTime cwd now = .launched inv →
      validateYouTubeUrl url = true) := by
  have hmem : ∀ p ∈ c, validateYouTubeUrl p.1 = true := by
    induction hr with
    | init => simp
    | info c url now toolResult _ ih =>
        intro p hp
        by_cases hv : validateYouTubeUrl url = true
        · cases hl : List.lookup url c with
          | some cached =>
              by_cases hf : (now : Int) - cached.timestamp < freshnessWindowMs
              · rw [show (videoInfoStep c url now toolResult).1 = c by
                  simp [videoInfoStep, hv, hl, hf]] at hp
                exact ih p hp
              · cases toolResult with
                | none =>
                    rw [show (videoInfoStep c url now none).1 = c by
                      simp [videoInfoStep, hv, hl, hf]] at hp
                    exact ih p hp
                | some out =>
                    rw [show (videoInfoStep c url now (some out)).1 =
                        cacheSet c url (parseVideoInfoOutput out now) by
                      simp [videoInfoStep, hv, hl, hf]] at hp
                    rcases List.mem_cons.mp hp with rfl | hp'
                    · exact hv
                    · exact ih p (List.mem_of_mem_filter hp')
          | none =>
              cases toolResult with
              | none =>
                  rw [show (videoInfoStep c url now none).1 = c by
                    simp [videoInfoStep, hv, hl]] at hp
                  exact ih p hp
              | some out =>
                  rw [show (videoInfoStep c url now (some out)).1 =
                      cacheSet c url (parseVideoInfoOutput out now) by
                    simp [videoInfoStep, hv, hl]] at hp
                  rcases List.mem_cons.mp hp with rfl | hp'
                  · exact hv
                  · exact ih p (List.mem_of_mem_filter hp')
        · rw [show (videoInfoStep c url now toolResult).1 = c by
            simp [videoInfoStep, hv]] at hp
          exact ih p hp
  refine ⟨hmem, fun url startTime endTime cwd now inv h => ?_⟩
  unfold fetchSegmentStep at h
  cases hl : List.lookup url c with
  | none => rw [hl] at h; exact absurd h (by simp)
  | some e => exact hmem (url, e) (lookup_mem hl)

/-- C10 witness: in the cache reached by one successful video-info call
for `sampleUrl`, the stored key is indeed a validated URL. -/
theorem C10_witness : validateYouTubeUrl sampleUrl = true :=
  (C10_cache_only_validated
      (videoInfoStep [] sampleUrl 0 (some "T|||th|||120|||Ch\nhttp://v\nhttp://a")).1
      (CacheReachable.info [] sampleUrl 0
        (some "T|||th|||120|||Ch\nhttp://v\nhttp://a") CacheReachable.init)).1
    (sampleUrl, parseVideoInfoOutput "T|||th|||120|||Ch\nhttp://v\nhttp://a" 0)
    (by simp +decide [videoInfoStep, cacheSet])
